import Mathlib

/-!
Shallow embedding of the credential-resolution and address-matching engine of
`src/cli/src/opts/wallet/multi_wallet.rs` (the `MultiWallet` struct, the
`get_wallets!`, `collect_addresses!` and `create_hw_wallets!` macros, and the
adapter methods `find_all`, `interactives`, `private_keys`, `keystores`,
`mnemonics`, `ledgers`, `trezors`, `get_from_trezor`, `get_from_ledger`).

External collaborators (the `WalletTrait` constructors `get_from_interactive`,
`get_from_private_key`, `get_from_keystore`, `get_from_mnemonic`, the device
constructors `Trezor::new` / `Ledger::new`, and the provider's `get_chainid`)
are not part of the sources; they are modelled as an `Env` record of oracles
whose signatures follow the spec's interface section. Machine addresses are
modelled as `Nat`; wallets carry their address plus an opaque `tag`
distinguishing identity instances. Rust `?`-propagation is `Except`, and the
`.unwrap()` panic in `keystores` is modelled by the dedicated error value
`Err.panicked`.
-/

namespace FoundryWallet

/-- Account addresses (`ethers::types::Address`), modelled as naturals. -/
abbrev Address := Nat

/-- An unbound signing identity as produced by an adapter: its address plus an
opaque payload distinguishing identity instances (`LocalWallet` / `Trezor` /
`Ledger` all expose `.address()`). -/
structure RawWallet where
  address : Address
  tag : Nat
deriving Repr, DecidableEq

/-- A chain-bound wallet: `SignerMiddleware::new(provider, wallet.with_chain_id(chain))`. -/
structure WalletType where
  address : Address
  tag : Nat
  chain : Nat
deriving Repr, DecidableEq

/-- Errors of the resolution engine.  `fromEnv` carries an opaque message of an
external collaborator (propagated through `?`); `bail` is an `eyre::bail!` in
this file; `context` is `wrap_err`; `unresolved` is the final `eyre::bail!` of
`find_all`, kept structured (format string plus its three arguments);
`panicked` models a Rust panic (the `.unwrap()` in `keystores`). -/
inductive Err where
  | fromEnv (msg : String)
  | bail (msg : String)
  | context (msg : String) (e : Err)
  | unresolved (errorMsg : String) (remaining : List Address) (unused : List Address)
  | panicked
deriving Repr, DecidableEq

/-- The `MultiWallet` clap struct (configuration fields only). -/
structure MultiWallet where
  interactives : Nat
  private_keys : Option (List String)
  private_key : Option String
  mnemonics : Option (List String)
  mnemonic_passphrases : Option (List String)
  hd_paths : Option (List String)
  mnemonic_indexes : Option (List Nat)
  keystore_paths : Option (List String)
  keystore_passwords : Option (List String)
  ledger : Bool
  trezor : Bool
  froms : Option (List Address)
deriving Repr, DecidableEq

/-- Hardware derivation selector: `TrezorHDPath::Other / TrezorLive` and
`LedgerHDPath::Other / LedgerLive`. -/
inductive HWDerivation where
  | other (path : String)
  | live (index : Nat)
deriving Repr, DecidableEq

/-- Modelled from the spec: the external collaborators consumed by the engine
(network provider, keystore file reader, mnemonic derivation library, secure
prompt reader, and the two hardware transports), none of which are in the
sources.  Each may fail with an opaque message.  `get_from_interactive` is
indexed by the prompt number so that repeated prompts are a deterministic
oracle; `get_from_keystore` mirrors the trait signature taking an optional
path and returning an optional wallet. -/
structure Env where
  get_chainid : Except String Nat
  get_from_interactive : Nat → Except String RawWallet
  get_from_private_key : String → Except String RawWallet
  get_from_keystore : Option String → Option String → Except String (Option RawWallet)
  get_from_mnemonic : String → Option String → Option String → Nat → Except String RawWallet
  trezor_new : HWDerivation → Nat → Except String RawWallet
  ledger_new : HWDerivation → Nat → Except String RawWallet

/-- Lift an external result into the engine's error type (`?` across the
collaborator boundary). -/
def liftE : Except String α → Except Err α
  | .error m => .error (.fromEnv m)
  | .ok a => .ok a

/-- Modelled from the spec: the well-known default/placeholder sender address
(`Config::DEFAULT_SENDER` of the external `foundry_config` crate). -/
def Config.DEFAULT_SENDER : Address := 0x00a329c0648769A73afAc7F9381E08FB43dBEA72

/-- The warning appended to the failure message when the default sender is
among the unresolved addresses. -/
def defaultSenderWarning : String :=
  "\nYou seem to be using Foundry\x27s default sender. Be sure to set your own --sender.\n"

/-- Rendering of an error to the single human-readable message eyre prints. -/
def renderErr : Err → String
  | .fromEnv msg => msg
  | .bail msg => msg
  | .context msg e => msg ++ ": " ++ renderErr e
  | .unresolved errorMsg remaining unused =>
      errorMsg ++ ("No associated wallet for addresses: " ++ reprStr remaining ++
        ". Unlocked wallets: " ++ reprStr unused)
  | .panicked => "panicked"

/-- The mutable state of `find_all`'s matching loop: the remaining
`addresses : HashSet<Address>` (as a duplicate-free list), the accumulating
`local_wallets : HashMap<Address, WalletType>` (as an association list in
insertion order) and the `unused_wallets` vector. -/
structure ResolveState where
  targets : List Address
  resolved : List (Address × WalletType)
  unused : List Address
deriving Repr, DecidableEq

/-- The success value of `find_all`: the resolved wallet map. -/
abbrev RMap := List (Address × WalletType)

/-- The result of one source expression inside `get_wallets!`:
`Result<Option<Vec<wallet>>>`. -/
abbrev Src := Except Err (Option (List RawWallet))

/-- Outcome of one iteration (or a run) of the matching loop: either the early
`return Ok(local)` or the continuation state. -/
inductive Step where
  | done (resolved : RMap)
  | cont (s : ResolveState)
deriving Repr, DecidableEq

/-- The `collect_addresses!` macro body: if the address is a remaining target,
remove it, insert the wallet, and early-return the map once the target set is
empty; otherwise push the address onto the unused list. -/
def collect_addresses (s : ResolveState) (address : Address) (wallet : WalletType) : Step :=
  if address ∈ s.targets then
    let targets := s.targets.erase address
    let resolved := s.resolved ++ [(address, wallet)]
    if targets.isEmpty then Step.done resolved
    else Step.cont ⟨targets, resolved, s.unused⟩
  else Step.cont ⟨s.targets, s.resolved, s.unused ++ [address]⟩

/-- The `for wallet in wallets` loop of `find_all`: bind each emitted wallet to
the chain id, wrap it, and run `collect_addresses!`; `Step.done` propagates the
early `return`. -/
def processWallets (chain : Nat) : ResolveState → List RawWallet → Step
  | s, [] => Step.cont s
  | s, wlt :: rest =>
    match collect_addresses s wlt.address ⟨wlt.address, wlt.tag, chain⟩ with
    | .done m => Step.done m
    | .cont s' => processWallets chain s' rest

/-- The unconditional `eyre::bail!` at the end of `find_all`: prepend the
default-sender warning when applicable and extend the unused list with the
keys of the wallets resolved so far. -/
def finalBail (s : ResolveState) : Except Err RMap :=
  let error_msg := if Config.DEFAULT_SENDER ∈ s.targets then defaultSenderWarning else ""
  .error (.unresolved error_msg s.targets (s.unused ++ s.resolved.map Prod.fst))

/-- Generic run of a priority-ordered list of source results: one `if let
Some(wallets) = expr? { loop }` arm per element, falling through to the final
bail when all sources are exhausted. -/
def find_all_from (chain : Nat) : List Src → ResolveState → Except Err RMap
  | [], s => finalBail s
  | src :: rest, s =>
    match src with
    | .error e => .error e
    | .ok none => find_all_from chain rest s
    | .ok (some wallets) =>
      match processWallets chain s wallets with
      | .done m => .ok m
      | .cont s' => find_all_from chain rest s'

/-- One arm of the `get_wallets!` macro expansion: propagate a source error,
skip an unconfigured source, run the matching loop on an emitted list, and
either early-return or continue with `k`. -/
def runSource (chain : Nat) (src : Src) (s : ResolveState)
    (k : ResolveState → Except Err RMap) : Except Err RMap :=
  match src with
  | .error e => .error e
  | .ok none => k s
  | .ok (some wallets) =>
    match processWallets chain s wallets with
    | .done m => .ok m
    | .cont s' => k s'

/-- A Rust-style fallible `for` loop pushing one wallet per input
(`wallets.push(f(x)?)`). -/
def pushLoop (f : α → Except Err RawWallet) : List α → Except Err (List RawWallet)
  | [] => .ok []
  | x :: xs =>
    match f x with
    | .error e => .error e
    | .ok wlt => (pushLoop f xs).map (wlt :: ·)

/-- `MultiWallet::interactives`: prompt `interactives` times when the counter
is non-zero. -/
def interactives_fn (env : Env) (w : MultiWallet) : Src :=
  if w.interactives ≠ 0 then
    (pushLoop (fun i => liftE (env.get_from_interactive i)) (List.range w.interactives)).map some
  else .ok none

/-- `MultiWallet::private_keys`: one wallet per supplied key string, trimmed. -/
def private_keys_fn (env : Env) (w : MultiWallet) : Src :=
  match w.private_keys with
  | some private_keys =>
    (pushLoop (fun k => liftE (env.get_from_private_key k.trim)) private_keys).map some
  | none => .ok none

/-- The keystore loop body: `get_from_keystore(Some(path), password.as_ref())?.unwrap()`;
an `Ok(None)` from the reader makes the `.unwrap()` panic. -/
def keystoreLoop (env : Env) : List (String × Option String) → Except Err (List RawWallet)
  | [] => .ok []
  | (path, password) :: rest =>
    match env.get_from_keystore (some path) password with
    | .error m => .error (.fromEnv m)
    | .ok none => .error .panicked
    | .ok (some wlt) => (keystoreLoop env rest).map (wlt :: ·)

/-- `MultiWallet::keystores`: pair every path with a password — all-absent when
no passwords were supplied, positionally otherwise, bailing out when a
non-empty password list does not match the path count. -/
def keystores_fn (env : Env) (w : MultiWallet) : Src :=
  match w.keystore_paths with
  | none => .ok none
  | some keystore_paths =>
    let passwords : List (Option String) :=
      ((w.keystore_passwords.getD []).map some)
    if passwords.isEmpty then
      (keystoreLoop env
        (keystore_paths.zip (List.replicate keystore_paths.length none))).map some
    else if passwords.length ≠ keystore_paths.length then
      .error (.bail "Keystore passwords don\x27t have the same length as keystore paths.")
    else
      (keystoreLoop env (keystore_paths.zip passwords)).map some

/-- `itertools::izip!` over four lists: truncates to the shortest. -/
def zip4 : List α → List β → List γ → List δ → List (α × β × γ × δ)
  | a :: as_, b :: bs, c :: cs, d :: ds => (a, b, c, d) :: zip4 as_ bs cs ds
  | _, _, _, _ => []

/-- `MultiWallet::mnemonics`: parallel lists default to all-`none`/all-`0`
when absent, and are zipped (`izip!`) with the mnemonic list otherwise. -/
def mnemonics_fn (env : Env) (w : MultiWallet) : Src :=
  match w.mnemonics with
  | none => .ok none
  | some mnemonics =>
    let hd_paths : List (Option String) :=
      match w.hd_paths with
      | some hd_paths => hd_paths.map some
      | none => List.replicate mnemonics.length none
    let mnemonic_passphrases : List (Option String) :=
      match w.mnemonic_passphrases with
      | some mnemonic_passphrases => mnemonic_passphrases.map some
      | none => List.replicate mnemonics.length none
    let mnemonic_indexes : List Nat :=
      match w.mnemonic_indexes with
      | some mnemonic_indexes => mnemonic_indexes
      | none => List.replicate mnemonics.length 0
    (pushLoop (fun t => liftE (env.get_from_mnemonic t.1 t.2.1 t.2.2.1 t.2.2.2))
      (zip4 mnemonics mnemonic_passphrases hd_paths mnemonic_indexes)).map some

/-- `MultiWallet::get_from_trezor`: explicit path when configured, otherwise
Trezor-Live derivation at the index (default 0). -/
def get_from_trezor (env : Env) (chain_id : Nat) (hd_path : Option String)
    (mnemonic_index : Option Nat) : Except Err (Option RawWallet) :=
  let derivation :=
    match hd_path with
    | some hd_path => HWDerivation.other hd_path
    | none => HWDerivation.live (mnemonic_index.getD 0)
  match env.trezor_new derivation chain_id with
  | .error m => .error (.fromEnv m)
  | .ok w => .ok (some w)

/-- `MultiWallet::get_from_ledger`: explicit path when configured, otherwise
Ledger-Live derivation at the index (default 0); device errors are wrapped
with a context message. -/
def get_from_ledger (env : Env) (chain_id : Nat) (hd_path : Option String)
    (mnemonic_index : Option Nat) : Except Err (Option RawWallet) :=
  let derivation :=
    match hd_path with
    | some hd_path => HWDerivation.other hd_path
    | none => HWDerivation.live (mnemonic_index.getD 0)
  match env.ledger_new derivation chain_id with
  | .error m => .error (.context "Ledger device not available." (.fromEnv m))
  | .ok w => .ok (some w)

/-- One phase of `create_hw_wallets!`: call the device once per input, pushing
the wallet when one is returned. -/
def hwPhase (f : α → Except Err (Option RawWallet)) : List α → Except Err (List RawWallet)
  | [] => .ok []
  | x :: xs =>
    match f x with
    | .error e => .error e
    | .ok none => hwPhase f xs
    | .ok (some hw) => (hwPhase f xs).map (hw :: ·)

/-- The `create_hw_wallets!` macro: one wallet per configured derivation path,
then one per configured mnemonic index, then a single index-0 wallet when the
work list is still empty. -/
def create_hw_wallets (get_wallet : Nat → Option String → Option Nat → Except Err (Option RawWallet))
    (self : MultiWallet) (chain_id : Nat) : Except Err (List RawWallet) :=
  match
    (match self.hd_paths with
     | some hd_paths => hwPhase (fun path => get_wallet chain_id (some path) none) hd_paths
     | none => .ok []) with
  | .error e => .error e
  | .ok w1 =>
    match
      (match self.mnemonic_indexes with
       | some mnemonic_indexes =>
         hwPhase (fun index => get_wallet chain_id none (some index)) mnemonic_indexes
       | none => .ok []) with
    | .error e => .error e
    | .ok w2 =>
      if (w1 ++ w2).isEmpty then
        match get_wallet chain_id none (some 0) with
        | .error e => .error e
        | .ok none => .ok (w1 ++ w2)
        | .ok (some hw) => .ok ((w1 ++ w2) ++ [hw])
      else .ok (w1 ++ w2)

/-- `MultiWallet::ledgers`: reject more than one configured derivation path up
front, clear the index list when paths are configured, then build the work
list. -/
def ledgers_fn (env : Env) (w : MultiWallet) (chain_id : Nat) : Src :=
  if w.ledger then
    match w.hd_paths with
    | some paths =>
      if paths.length > 1 then .error (.bail "Ledger only supports one signer.")
      else
        (create_hw_wallets (get_from_ledger env)
          { w with mnemonic_indexes := none } chain_id).map some
    | none => (create_hw_wallets (get_from_ledger env) w chain_id).map some
  else .ok none

/-- `MultiWallet::trezors`: build the work list directly from the
configuration. -/
def trezors_fn (env : Env) (w : MultiWallet) (chain_id : Nat) : Src :=
  if w.trezor then (create_hw_wallets (get_from_trezor env) w chain_id).map some
  else .ok none

/-- The `script_wallets_fn` closure of `find_all`: the caller-supplied wallets
count as a source exactly when non-empty. -/
def script_wallets_fn (script_wallets : List RawWallet) : Src :=
  if ¬ script_wallets.isEmpty then .ok (some script_wallets) else .ok none

/-- The seven source expressions of `get_wallets!`, in the order they appear
in `find_all`. -/
def sourceList (env : Env) (w : MultiWallet) (chain : Nat)
    (script_wallets : List RawWallet) : List Src :=
  [trezors_fn env w chain, ledgers_fn env w chain, private_keys_fn env w,
   interactives_fn env w, mnemonics_fn env w, keystores_fn env w,
   script_wallets_fn script_wallets]

/-- `MultiWallet::find_all`: query the chain id, then run the `get_wallets!`
expansion over the seven sources in program order, falling through to the
final bail. -/
def find_all (env : Env) (w : MultiWallet) (addresses : List Address)
    (script_wallets : List RawWallet) : Except Err RMap :=
  match liftE env.get_chainid with
  | .error e => .error e
  | .ok chain =>
    runSource chain (trezors_fn env w chain) ⟨addresses, [], []⟩ fun s1 =>
    runSource chain (ledgers_fn env w chain) s1 fun s2 =>
    runSource chain (private_keys_fn env w) s2 fun s3 =>
    runSource chain (interactives_fn env w) s3 fun s4 =>
    runSource chain (mnemonics_fn env w) s4 fun s5 =>
    runSource chain (keystores_fn env w) s5 fun s6 =>
    runSource chain (script_wallets_fn script_wallets) s6 fun s7 =>
    finalBail s7

/-- Modelled from the spec: the same engine but with the adapter priority
order the spec prescribes — the single-signer device (Ledger, device B)
first, then the live-index device (Trezor, device A), then raw keys,
prompts, mnemonics, keystores, external wallets. -/
def find_all_spec_order (env : Env) (w : MultiWallet) (addresses : List Address)
    (script_wallets : List RawWallet) : Except Err RMap :=
  match liftE env.get_chainid with
  | .error e => .error e
  | .ok chain =>
    runSource chain (ledgers_fn env w chain) ⟨addresses, [], []⟩ fun s1 =>
    runSource chain (trezors_fn env w chain) s1 fun s2 =>
    runSource chain (private_keys_fn env w) s2 fun s3 =>
    runSource chain (interactives_fn env w) s3 fun s4 =>
    runSource chain (mnemonics_fn env w) s4 fun s5 =>
    runSource chain (keystores_fn env w) s5 fun s6 =>
    runSource chain (script_wallets_fn script_wallets) s6 fun s7 =>
    finalBail s7

/-- Decidable success test on `Except`. -/
def isOkE : Except ε α → Bool
  | .ok _ => true
  | .error _ => false

/-- Classified outcome of running the `get_wallets!` source sequence: an early
`return Ok(local)` fired, a source expression's `?` propagated an error, or
every source was consumed without emptying the target set (exhaustion), ending
in the given loop state. -/
inductive FoldOut where
  | early (m : RMap)
  | failed (e : Err)
  | exhausted (s : ResolveState)
deriving Repr, DecidableEq

/-- The run of the `get_wallets!` source sequence with its outcome classified:
identical control flow to `find_all_from`, but stopping short of the final
bail so that the exhaustion state is exposed. -/
def foldSources (chain : Nat) : List Src → ResolveState → FoldOut
  | [], s => .exhausted s
  | src :: rest, s =>
    match src with
    | .error e => .failed e
    | .ok none => foldSources chain rest s
    | .ok (some wallets) =>
      match processWallets chain s wallets with
      | .done m => .early m
      | .cont s' => foldSources chain rest s'

/-- Whether an error is the `unresolved` diagnostic. -/
def Err.isUnres : Err → Bool
  | .unresolved _ _ _ => true
  | _ => false

/-- The all-defaults `MultiWallet` configuration (every source unconfigured). -/
def emptyWallet : MultiWallet :=
  ⟨0, none, none, none, none, none, none, none, none, false, false, none⟩

/-- A benign environment: the chain query succeeds, every other collaborator
fails with an opaque message. -/
def envNone : Env :=
  ⟨.ok 1, fun _ => .error "e", fun _ => .error "e", fun _ _ => .error "e",
   fun _ _ _ _ => .error "e", fun _ _ => .error "e", fun _ _ => .error "e"⟩

/-- An environment whose keystore reader always returns the same wallet. -/
def envKeystore : Env :=
  ⟨.ok 1, fun _ => .error "e", fun _ => .error "e", fun _ _ => .ok (some ⟨7, 0⟩),
   fun _ _ _ _ => .error "e", fun _ _ => .error "e", fun _ _ => .error "e"⟩

/-- An environment whose mnemonic library always derives the same wallet. -/
def envMnemonic : Env :=
  ⟨.ok 1, fun _ => .error "e", fun _ => .error "e", fun _ _ => .error "e",
   fun _ _ _ _ => .ok ⟨0, 0⟩, fun _ _ => .error "e", fun _ _ => .error "e"⟩

/-- The address a hardware oracle reports for a derivation: explicit paths map
to 1, live indexes to `100 + i`, so the derivation used is visible in the
emitted wallet. -/
def hwAddr : HWDerivation → Address
  | .other _ => 1
  | .live i => 100 + i

/-- An environment whose two device transports always answer, tagging each
wallet with the derivation that produced it. -/
def envHW : Env :=
  ⟨.ok 1, fun _ => .error "e", fun _ => .error "e", fun _ _ => .error "e",
   fun _ _ _ _ => .error "e", fun d _ => .ok ⟨hwAddr d, 0⟩, fun d _ => .ok ⟨hwAddr d, 1⟩⟩

/-- An environment where the Trezor emits the wallet for address 5 while the
Ledger transport is unreachable. -/
def envTrezorOnly : Env :=
  ⟨.ok 1, fun _ => .error "e", fun _ => .error "e", fun _ _ => .error "e",
   fun _ _ _ _ => .error "e", fun _ _ => .ok ⟨5, 0⟩, fun _ _ => .error "device not available"⟩

/-- Two mnemonics with a single supplied derivation path (claim C2's input). -/
def cw2 : MultiWallet :=
  { emptyWallet with mnemonics := some ["m1", "m2"], hd_paths := some ["p0"] }

/-- Two mnemonics, all parallel lists absent. -/
def cw2all : MultiWallet :=
  { emptyWallet with mnemonics := some ["m1", "m2"] }

/-- Two keystore paths with one supplied password (claim C4's mismatch input). -/
def cw4 : MultiWallet :=
  { emptyWallet with keystore_paths := some ["p1", "p2"], keystore_passwords := some ["x"] }

/-- Two keystore paths and no passwords. -/
def cw4none : MultiWallet :=
  { emptyWallet with keystore_paths := some ["p1", "p2"] }

/-- Two keystore paths with two passwords. -/
def cw4eq : MultiWallet :=
  { emptyWallet with keystore_paths := some ["p1", "p2"],
                     keystore_passwords := some ["x", "y"] }

/-- A Trezor configuration with both a derivation path and a mnemonic index
configured (claim C5's input). -/
def cw5 : MultiWallet :=
  { emptyWallet with trezor := true, hd_paths := some ["p"], mnemonic_indexes := some [7] }

/-- A Ledger configuration with one derivation path and a mnemonic index. -/
def cw5L : MultiWallet :=
  { emptyWallet with ledger := true, hd_paths := some ["p"], mnemonic_indexes := some [7] }

/-- A Ledger configuration with only a mnemonic index. -/
def cw5LI : MultiWallet :=
  { emptyWallet with ledger := true, mnemonic_indexes := some [3] }

/-- A Ledger configuration with two derivation paths (claim C6's input). -/
def cw6 : MultiWallet :=
  { emptyWallet with ledger := true, hd_paths := some ["a", "b"] }

/-- Both hardware devices enabled, nothing else configured (claim C7's input). -/
def cw7 : MultiWallet :=
  { emptyWallet with trezor := true, ledger := true }

/-- A single keystore path (claim C10's input). -/
def cw10 : MultiWallet :=
  { emptyWallet with keystore_paths := some ["p1"] }

/-! ## Helper lemmas -/

theorem pushLoop_total (f : α → Except Err RawWallet) (g : α → RawWallet)
    (hf : ∀ a, f a = Except.ok (g a)) (l : List α) :
    pushLoop f l = Except.ok (l.map g) := by
  induction l with
  | nil => rfl
  | cons x xs ih => simp [pushLoop, hf x, ih, Except.map]

theorem keystoreLoop_total (env : Env) (f : String → Option String → RawWallet)
    (hf : ∀ p pw, env.get_from_keystore (some p) pw = Except.ok (some (f p pw)))
    (l : List (String × Option String)) :
    keystoreLoop env l = Except.ok (l.map fun pp => f pp.1 pp.2) := by
  induction l with
  | nil => rfl
  | cons x xs ih =>
    obtain ⟨p, pw⟩ := x
    simp [keystoreLoop, hf p pw, ih, Except.map]

theorem hwPhase_total (f : α → Except Err (Option RawWallet)) (g : α → RawWallet)
    (hf : ∀ a, f a = Except.ok (some (g a))) (l : List α) :
    hwPhase f l = Except.ok (l.map g) := by
  induction l with
  | nil => rfl
  | cons x xs ih => simp [hwPhase, hf x, ih, Except.map]

theorem zip_replicate_none (l : List α) :
    l.zip (List.replicate l.length (none : Option β)) = l.map fun a => (a, none) := by
  induction l with
  | nil => rfl
  | cons x xs ih => simp [List.replicate_succ, ih]

theorem zip4_defaults (ms : List String) :
    zip4 ms (List.replicate ms.length (none : Option String))
      (List.replicate ms.length (none : Option String))
      (List.replicate ms.length (0 : Nat))
      = ms.map fun m => (m, (none : Option String), (none : Option String), (0 : Nat)) := by
  induction ms with
  | nil => rfl
  | cons m rest ih => simp [zip4, List.replicate_succ, ih]

theorem zip4_paths (ms : List String) :
    ∀ ps : List String,
      zip4 ms (List.replicate ms.length (none : Option String)) (ps.map some)
        (List.replicate ms.length (0 : Nat))
      = (ms.zip ps).map fun mp => (mp.1, (none : Option String), some mp.2, (0 : Nat)) := by
  induction ms with
  | nil => intro ps; rfl
  | cons m rest ih =>
    intro ps
    cases ps with
    | nil => rfl
    | cons p ps' => simp [zip4, List.replicate_succ, ih ps']

theorem processWallets_append_done (chain : Nat) (ws : List RawWallet) :
    ∀ (s : ResolveState) (extra : List RawWallet) (m : RMap),
      processWallets chain s ws = Step.done m →
      processWallets chain s (ws ++ extra) = Step.done m := by
  induction ws with
  | nil => intro s extra m h; simp [processWallets] at h
  | cons wlt rest ih =>
    intro s extra m h
    cases hc : collect_addresses s wlt.address ⟨wlt.address, wlt.tag, chain⟩ with
    | done m' =>
      simp [processWallets, hc] at h ⊢
      exact h
    | cont s' =>
      simp only [processWallets, List.cons_append, hc] at h ⊢
      exact ih s' extra m h

theorem find_all_from_append_ok (chain : Nat) (pre : List Src) :
    ∀ (rest : List Src) (s : ResolveState) (m : RMap),
      find_all_from chain pre s = Except.ok m →
      find_all_from chain (pre ++ rest) s = Except.ok m := by
  induction pre with
  | nil => intro rest s m h; simp [find_all_from, finalBail] at h
  | cons src pre' ih =>
    intro rest s m h
    cases src with
    | error e => simp [find_all_from] at h
    | ok o =>
      cases o with
      | none =>
        simp only [find_all_from, List.cons_append] at h ⊢
        exact ih rest s m h
      | some ws =>
        simp only [find_all_from, List.cons_append] at h ⊢
        cases hp : processWallets chain s ws with
        | done m' =>
          simp [hp] at h ⊢
          exact h
        | cont s' =>
          simp only [hp] at h ⊢
          exact ih rest s' m h

theorem find_all_from_nil (chain : Nat) (s : ResolveState) :
    find_all_from chain [] s = finalBail s := rfl

theorem find_all_from_cons (chain : Nat) (src : Src) (rest : List Src) (s : ResolveState) :
    find_all_from chain (src :: rest) s
      = runSource chain src s (fun s' => find_all_from chain rest s') := by
  cases src with
  | error e => rfl
  | ok o =>
    cases o with
    | none => rfl
    | some ws =>
      simp only [find_all_from, runSource]

theorem find_all_eq (env : Env) (w : MultiWallet) (addrs : List Address)
    (sw : List RawWallet) :
    find_all env w addrs sw
      = match liftE env.get_chainid with
        | .error e => .error e
        | .ok chain => find_all_from chain (sourceList env w chain sw) ⟨addrs, [], []⟩ := by
  cases hch : liftE env.get_chainid with
  | error e => simp [find_all, hch]
  | ok chain =>
    simp only [find_all, hch, sourceList]
    simp only [find_all_from_cons, find_all_from_nil]

theorem processWallets_nil_targets (chain : Nat) (ws : List RawWallet) :
    ∀ s : ResolveState, s.targets = [] →
      ∃ s', processWallets chain s ws = Step.cont s' ∧ s'.targets = [] := by
  induction ws with
  | nil => intro s h; exact ⟨s, rfl, h⟩
  | cons wlt rest ih =>
    intro s h
    have hc : collect_addresses s wlt.address ⟨wlt.address, wlt.tag, chain⟩ =
        Step.cont ⟨s.targets, s.resolved, s.unused ++ [wlt.address]⟩ := by
      simp [collect_addresses, h]
    obtain ⟨s', hs', ht⟩ := ih ⟨s.targets, s.resolved, s.unused ++ [wlt.address]⟩ h
    refine ⟨s', ?_, ht⟩
    simp only [processWallets, hc]
    exact hs'

theorem find_all_from_nil_targets (chain : Nat) (srcs : List Src) :
    ∀ s : ResolveState, s.targets = [] → isOkE (find_all_from chain srcs s) = false := by
  induction srcs with
  | nil => intro s h; rfl
  | cons src rest ih =>
    intro s h
    cases src with
    | error e => rfl
    | ok o =>
      cases o with
      | none => exact ih s h
      | some ws =>
        obtain ⟨s', hs', ht⟩ := processWallets_nil_targets chain ws s h
        simp only [find_all_from, hs']
        exact ih s' ht

/-! ## Claims -/

/-- Claim C1: the instant some emitted identity's address removal makes the
target set empty, the matching loop returns the map built so far: the
remaining identities of the current source are never processed (`Step.done`
absorbs any extension of the wallet list) and the remaining sources are never
evaluated (an early `Except.ok` of `find_all_from` is unchanged by any suffix
of further sources). -/
theorem claim1_early_exit :
    (∀ (chain : Nat) (s : ResolveState) (ws extra : List RawWallet) (m : RMap),
        processWallets chain s ws = Step.done m →
        processWallets chain s (ws ++ extra) = Step.done m) ∧
    (∀ (chain : Nat) (pre rest : List Src) (s : ResolveState) (m : RMap),
        find_all_from chain pre s = Except.ok m →
        find_all_from chain (pre ++ rest) s = Except.ok m) :=
  ⟨fun chain s ws extra m h => processWallets_append_done chain ws s extra m h,
   fun chain pre rest s m h => find_all_from_append_ok chain pre rest s m h⟩

/-- Witness for C1 at a concrete input: one wallet matching the single target
early-exits, and an appended wallet or a later erroring source changes
nothing. -/
theorem claim1_early_exit_witness :
    processWallets 1 ⟨[5], [], []⟩ ([⟨5, 0⟩] ++ [⟨6, 1⟩]) = Step.done [(5, ⟨5, 0, 1⟩)] ∧
    find_all_from 1 ([Except.ok (some [⟨5, 0⟩])] ++ [Except.error Err.panicked])
      ⟨[5], [], []⟩ = Except.ok [(5, ⟨5, 0, 1⟩)] :=
  ⟨claim1_early_exit.1 1 ⟨[5], [], []⟩ [⟨5, 0⟩] [⟨6, 1⟩] [(5, ⟨5, 0, 1⟩)] (by decide),
   claim1_early_exit.2 1 [Except.ok (some [⟨5, 0⟩])] [Except.error Err.panicked]
     ⟨[5], [], []⟩ [(5, ⟨5, 0, 1⟩)] (by rfl)⟩

/-- Counterexample to claim C3: with an empty target set at entry and no
source configured at all, `find_all` does not succeed — the emptiness check
sits inside the matched branch of `collect_addresses!`, so the final
unconditional bail is reached and resolution fails. -/
theorem claim3_counterexample :
    find_all envNone emptyWallet [] [] = Except.error (Err.unresolved "" [] []) := by
  rfl

/-- Claim C3 (amended): an empty target set at entry is never a success state:
`find_all` early-exits only after a removal empties the set, which cannot
happen, so every such call returns an error (a source error or the final
unresolved bail), never `Ok`. -/
theorem claim3_amended (env : Env) (w : MultiWallet) (addrs : List Address)
    (sw : List RawWallet) (h : addrs = []) : isOkE (find_all env w addrs sw) = false := by
  rw [find_all_eq]
  cases hch : liftE env.get_chainid with
  | error e => rfl
  | ok chain => exact find_all_from_nil_targets chain (sourceList env w chain sw) _ h

/-- Witness for the amended C3 at a concrete input. -/
theorem claim3_amended_witness :
    isOkE (find_all envKeystore cw10 [] []) = false :=
  claim3_amended envKeystore cw10 [] [] rfl

/-- Claim C4: with keystore paths configured, a supplied non-empty password
list whose length differs from the path count fails with the password-count
bail; an absent password list opens every path with `none`; equal lengths
open path `i` with password `i`. -/
theorem claim4_keystores (env : Env) (w : MultiWallet) (paths : List String)
    (hp : w.keystore_paths = some paths) :
    (∀ pws, w.keystore_passwords = some pws → pws ≠ [] → pws.length ≠ paths.length →
       keystores_fn env w
         = .error (.bail "Keystore passwords don\x27t have the same length as keystore paths.")) ∧
    (∀ f : String → Option String → RawWallet,
       (∀ p pw, env.get_from_keystore (some p) pw = Except.ok (some (f p pw))) →
       (w.keystore_passwords = none →
          keystores_fn env w = .ok (some (paths.map fun p => f p none))) ∧
       (∀ pws, w.keystore_passwords = some pws → pws.length = paths.length →
          keystores_fn env w = .ok (some ((paths.zip (pws.map some)).map fun pp => f pp.1 pp.2)))) := by
  constructor
  · intro pws hpw hne hlen
    cases pws with
    | nil => exact absurd rfl hne
    | cons q qs =>
      have hcond : (((q :: qs).map some)).length ≠ paths.length := by
        simpa using hlen
      simp only [keystores_fn, hp, hpw, Option.getD_some]
      rw [if_neg (by simp), if_pos hcond]
  · intro f hf
    constructor
    · intro hnone
      simp only [keystores_fn, hp, hnone, Option.getD_none, List.map_nil]
      rw [if_pos (show ([] : List (Option String)).isEmpty = true from rfl),
        zip_replicate_none, keystoreLoop_total env f hf]
      simp [Except.map, Function.comp]
    · intro pws hpw hlen
      cases pws with
      | nil =>
        have hpaths : paths = [] := by
          cases paths with
          | nil => rfl
          | cons a l => simp at hlen
        subst hpaths
        simp [keystores_fn, hp, hpw, keystoreLoop, Except.map]
      | cons q qs =>
        have hcond : ¬ ((((q :: qs).map some)).length ≠ paths.length) := by
          simpa using hlen
        simp only [keystores_fn, hp, hpw, Option.getD_some]
        rw [if_neg (by simp), if_neg hcond, keystoreLoop_total env f hf]
        simp [Except.map]

/-- Witness for C4 at concrete inputs: two paths with one password bail out;
two paths with no passwords open both with `none`; two paths with two
passwords pair positionally. -/
theorem claim4_keystores_witness :
    keystores_fn envKeystore cw4
      = .error (.bail "Keystore passwords don\x27t have the same length as keystore paths.") ∧
    keystores_fn envKeystore cw4none = .ok (some [⟨7, 0⟩, ⟨7, 0⟩]) ∧
    keystores_fn envKeystore cw4eq = .ok (some [⟨7, 0⟩, ⟨7, 0⟩]) :=
  ⟨(claim4_keystores envKeystore cw4 ["p1", "p2"] rfl).1 ["x"] rfl (by decide) (by decide),
   ((claim4_keystores envKeystore cw4none ["p1", "p2"] rfl).2 (fun _ _ => ⟨7, 0⟩)
     (fun _ _ => rfl)).1 rfl,
   ((claim4_keystores envKeystore cw4eq ["p1", "p2"] rfl).2 (fun _ _ => ⟨7, 0⟩)
     (fun _ _ => rfl)).2 ["x", "y"] rfl rfl⟩

/-- Claim C6: a Ledger configuration with two or more derivation paths fails
up front with the multi-path bail, for every environment — in particular no
device interaction can influence the result. -/
theorem claim6_ledger_multipath (env : Env) (w : MultiWallet) (chain_id : Nat)
    (paths : List String) (hl : w.ledger = true) (hp : w.hd_paths = some paths)
    (hn : 2 ≤ paths.length) :
    ledgers_fn env w chain_id = .error (.bail "Ledger only supports one signer.") := by
  simp only [ledgers_fn, hl, hp, if_true]
  rw [if_pos]
  omega

/-- Witness for C6 at a concrete input: two paths on a Ledger bail out even in
an environment where every device call would fail differently. -/
theorem claim6_ledger_multipath_witness :
    ledgers_fn envNone cw6 3 = .error (.bail "Ledger only supports one signer.") :=
  claim6_ledger_multipath envNone cw6 3 ["a", "b"] rfl rfl (by decide)

/-- Counterexample to claim C2: two configured mnemonics with a supplied
one-element `hd_paths` list yield a single identity, not two — `izip!`
truncates to the shortest list, so position 1 is skipped rather than
defaulted. -/
theorem claim2_counterexample :
    cw2.mnemonics = some ["m1", "m2"] ∧ cw2.hd_paths = some ["p0"] ∧
    mnemonics_fn envMnemonic cw2 = Except.ok (some [⟨0, 0⟩]) :=
  ⟨rfl, rfl, rfl⟩

/-- Claim C2 (amended): a parallel list that is entirely absent defaults every
position (`none` path/passphrase, index `0`), producing one identity per
mnemonic; but a parallel list that is supplied is zipped with truncation, so
only the first `min n m` mnemonics produce identities. -/
theorem pushLoop_mnemonic (env : Env)
    (f : String → Option String → Option String → Nat → RawWallet)
    (hf : ∀ m pp hp i, env.get_from_mnemonic m pp hp i = Except.ok (f m pp hp i))
    (l : List (String × Option String × Option String × Nat)) :
    pushLoop (fun t => liftE (env.get_from_mnemonic t.1 t.2.1 t.2.2.1 t.2.2.2)) l
      = Except.ok (l.map fun t => f t.1 t.2.1 t.2.2.1 t.2.2.2) :=
  pushLoop_total _ _ (fun t => by simp [liftE, hf]) l

theorem claim2_amended (env : Env) (w : MultiWallet) (ms : List String)
    (f : String → Option String → Option String → Nat → RawWallet)
    (hm : w.mnemonics = some ms)
    (hf : ∀ m pp hp i, env.get_from_mnemonic m pp hp i = Except.ok (f m pp hp i)) :
    (w.hd_paths = none → w.mnemonic_passphrases = none → w.mnemonic_indexes = none →
       mnemonics_fn env w = .ok (some (ms.map fun m => f m none none 0))) ∧
    (∀ ps, w.hd_paths = some ps → w.mnemonic_passphrases = none → w.mnemonic_indexes = none →
       mnemonics_fn env w
         = .ok (some ((ms.zip ps).map fun mp => f mp.1 none (some mp.2) 0))) := by
  constructor
  · intro h1 h2 h3
    simp only [mnemonics_fn, hm, h1, h2, h3]
    rw [zip4_defaults, pushLoop_mnemonic env f hf]
    simp [Except.map, List.map_map, Function.comp]
  · intro ps h1 h2 h3
    simp only [mnemonics_fn, hm, h1, h2, h3]
    rw [zip4_paths, pushLoop_mnemonic env f hf]
    simp [Except.map, List.map_map, Function.comp]

/-- Witness for the amended C2 at concrete inputs: absent lists default all
two positions; a one-element supplied path list truncates to one identity. -/
theorem claim2_amended_witness :
    mnemonics_fn envMnemonic cw2all = Except.ok (some [⟨0, 0⟩, ⟨0, 0⟩]) ∧
    mnemonics_fn envMnemonic cw2 = Except.ok (some [⟨0, 0⟩]) :=
  ⟨(claim2_amended envMnemonic cw2all ["m1", "m2"] (fun _ _ _ _ => ⟨0, 0⟩) rfl
      (fun _ _ _ _ => rfl)).1 rfl rfl rfl,
   (claim2_amended envMnemonic cw2 ["m1", "m2"] (fun _ _ _ _ => ⟨0, 0⟩) rfl
      (fun _ _ _ _ => rfl)).2 ["p0"] rfl rfl rfl⟩

/-- Counterexample to claim C5: a Trezor with one configured derivation path
and one configured mnemonic index emits two identities — the index-derived
one (address `107` encodes Trezor-Live index 7) is produced even though a
path was configured. -/
theorem claim5_counterexample :
    cw5.trezor = true ∧ cw5.hd_paths = some ["p"] ∧ cw5.mnemonic_indexes = some [7] ∧
    trezors_fn envHW cw5 1 = Except.ok (some [⟨1, 0⟩, ⟨107, 0⟩]) :=
  ⟨rfl, rfl, rfl, rfl⟩

/-- Claim C5 (amended): the work list is one identity per configured path plus
one per configured index, where the index phase is skipped only by the Ledger
variant (configuring paths clears its index list); the Trezor variant keeps
both phases; a single index-0 identity is the fallback when the built list is
empty. -/
theorem claim5_amended (env : Env) (w : MultiWallet) (chain : Nat)
    (f g : HWDerivation → Nat → RawWallet)
    (hf : ∀ d c, env.trezor_new d c = Except.ok (f d c))
    (hg : ∀ d c, env.ledger_new d c = Except.ok (g d c)) :
    (∀ ps idxs, w.trezor = true → w.hd_paths = some ps → w.mnemonic_indexes = some idxs →
       ps ≠ [] →
       trezors_fn env w chain
         = .ok (some (ps.map (fun p => f (.other p) chain)
             ++ idxs.map (fun i => f (.live i) chain)))) ∧
    (∀ ps, w.ledger = true → w.hd_paths = some ps → ps.length = 1 →
       ledgers_fn env w chain = .ok (some (ps.map (fun p => g (.other p) chain)))) ∧
    (w.trezor = true → w.hd_paths = none → w.mnemonic_indexes = none →
       trezors_fn env w chain = .ok (some [f (.live 0) chain])) ∧
    (∀ idxs, w.ledger = true → w.hd_paths = none → w.mnemonic_indexes = some idxs →
       idxs ≠ [] →
       ledgers_fn env w chain = .ok (some (idxs.map (fun i => g (.live i) chain)))) := by
  refine ⟨?_, ?_, ?_, ?_⟩
  · intro ps idxs ht hps hidx hne
    have h1 : hwPhase (fun path => get_from_trezor env chain (some path) none) ps
        = Except.ok (ps.map fun p => f (.other p) chain) :=
      hwPhase_total _ _ (fun p => by simp [get_from_trezor, hf]) ps
    have h2 : hwPhase (fun index => get_from_trezor env chain none (some index)) idxs
        = Except.ok (idxs.map fun i => f (.live i) chain) :=
      hwPhase_total _ _ (fun i => by simp [get_from_trezor, hf]) idxs
    obtain ⟨p0, ps', rfl⟩ := List.exists_cons_of_ne_nil hne
    simp [trezors_fn, ht, create_hw_wallets, hps, hidx, h1, h2, Except.map]
  · intro ps hl hps hlen
    obtain ⟨a, rfl⟩ := List.length_eq_one.mp hlen
    have h1 : hwPhase (fun path => get_from_ledger env chain (some path) none) [a]
        = Except.ok [g (.other a) chain] := by
      simp [hwPhase, get_from_ledger, hg, Except.map]
    simp only [ledgers_fn, hl, if_true, hps]
    rw [if_neg (by simp)]
    simp [create_hw_wallets, hps, h1, Except.map]
  · intro ht hps hidx
    simp [trezors_fn, ht, create_hw_wallets, hps, hidx, get_from_trezor, hf, Except.map]
  · intro idxs hl hps hidx hne
    have h2 : hwPhase (fun index => get_from_ledger env chain none (some index)) idxs
        = Except.ok (idxs.map fun i => g (.live i) chain) :=
      hwPhase_total _ _ (fun i => by simp [get_from_ledger, hg]) idxs
    obtain ⟨i0, idxs', rfl⟩ := List.exists_cons_of_ne_nil hne
    simp [ledgers_fn, hl, create_hw_wallets, hps, hidx, h2, Except.map]

/-- Witness for the amended C5 at concrete inputs: Trezor with a path and an
index emits both; Ledger with one path and an index emits only the path
identity; Trezor with nothing configured falls back to Trezor-Live index 0;
Ledger with only an index emits the Ledger-Live identity for it. -/
theorem claim5_amended_witness :
    trezors_fn envHW cw5 1 = Except.ok (some [⟨1, 0⟩, ⟨107, 0⟩]) ∧
    ledgers_fn envHW cw5L 1 = Except.ok (some [⟨1, 1⟩]) ∧
    trezors_fn envHW cw7 1 = Except.ok (some [⟨100, 0⟩]) ∧
    ledgers_fn envHW cw5LI 1 = Except.ok (some [⟨103, 1⟩]) :=
  ⟨(claim5_amended envHW cw5 1 (fun d _ => ⟨hwAddr d, 0⟩) (fun d _ => ⟨hwAddr d, 1⟩)
      (fun _ _ => rfl) (fun _ _ => rfl)).1 ["p"] [7] rfl rfl rfl (by decide),
   (claim5_amended envHW cw5L 1 (fun d _ => ⟨hwAddr d, 0⟩) (fun d _ => ⟨hwAddr d, 1⟩)
      (fun _ _ => rfl) (fun _ _ => rfl)).2.1 ["p"] rfl rfl rfl,
   (claim5_amended envHW cw7 1 (fun d _ => ⟨hwAddr d, 0⟩) (fun d _ => ⟨hwAddr d, 1⟩)
      (fun _ _ => rfl) (fun _ _ => rfl)).2.2.1 rfl rfl rfl,
   (claim5_amended envHW cw5LI 1 (fun d _ => ⟨hwAddr d, 0⟩) (fun d _ => ⟨hwAddr d, 1⟩)
      (fun _ _ => rfl) (fun _ _ => rfl)).2.2.2 [3] rfl rfl rfl (by decide)⟩

/-- Counterexample to claim C7: with both devices enabled, the Trezor emitting
the single target and the Ledger transport unreachable, the engine succeeds —
so the Trezor source runs first — whereas under the spec's claimed order
(single-signer Ledger first) the same call would abort with the wrapped
Ledger device error. -/
theorem claim7_counterexample :
    find_all envTrezorOnly cw7 [5] [] = Except.ok [(5, ⟨5, 0, 1⟩)] ∧
    find_all_spec_order envTrezorOnly cw7 [5] []
      = Except.error
          (.context "Ledger device not available." (.fromEnv "device not available")) :=
  ⟨rfl, rfl⟩

/-- Claim C7 (amended): adapters are evaluated in the order trezors (the
live-index device), ledgers (the single-signer device), raw private keys,
interactive prompts, mnemonics, keystores, then externally-supplied wallets;
the first source in this order to emit a target address claims it (whatever
sources follow), and a later occurrence of an already-claimed address is
pushed to the unused list. -/
theorem claim7_amended :
    (∀ (env : Env) (w : MultiWallet) (addrs : List Address) (sw : List RawWallet),
        find_all env w addrs sw
          = match liftE env.get_chainid with
            | .error e => .error e
            | .ok chain =>
              find_all_from chain
                [trezors_fn env w chain, ledgers_fn env w chain, private_keys_fn env w,
                 interactives_fn env w, mnemonics_fn env w, keystores_fn env w,
                 script_wallets_fn sw] ⟨addrs, [], []⟩) ∧
    (∀ (chain : Nat) (a : Address) (t1 : Nat) (rest : List Src),
        find_all_from chain (Except.ok (some [⟨a, t1⟩]) :: rest) ⟨[a], [], []⟩
          = Except.ok [(a, ⟨a, t1, chain⟩)]) ∧
    (∀ (chain : Nat) (a b : Address) (t1 t2 : Nat), a ≠ b → Config.DEFAULT_SENDER ≠ b →
        find_all_from chain [Except.ok (some [⟨a, t1⟩]), Except.ok (some [⟨a, t2⟩])]
          ⟨[a, b], [], []⟩
          = Except.error (.unresolved "" [b] [a, a])) := by
  refine ⟨fun env w addrs sw => find_all_eq env w addrs sw, ?_, ?_⟩
  · intro chain a t1 rest
    have hc : collect_addresses ⟨[a], [], []⟩ a ⟨a, t1, chain⟩
        = Step.done [(a, ⟨a, t1, chain⟩)] := by
      simp [collect_addresses]
    simp [find_all_from, processWallets, hc]
  · intro chain a b t1 t2 hab hdb
    have hc1 : collect_addresses ⟨[a, b], [], []⟩ a ⟨a, t1, chain⟩
        = Step.cont ⟨[b], [(a, ⟨a, t1, chain⟩)], []⟩ := by
      simp [collect_addresses, List.erase_cons_head]
    have hc2 : collect_addresses ⟨[b], [(a, ⟨a, t1, chain⟩)], []⟩ a ⟨a, t2, chain⟩
        = Step.cont ⟨[b], [(a, ⟨a, t1, chain⟩)], [a]⟩ := by
      simp [collect_addresses, hab]
    have hfb : finalBail ⟨[b], [(a, ⟨a, t1, chain⟩)], [a]⟩
        = Except.error (.unresolved "" [b] [a, a]) := by
      simp [finalBail, (hdb : Config.DEFAULT_SENDER ≠ b)]
    simp [find_all_from, processWallets, hc1, hc2, hfb]

/-- Witness for the amended C7 at concrete inputs: the first source claims the
target no matter what follows, and a duplicate emission of an already-claimed
address ends up in the unused list of the final diagnostic. -/
theorem claim7_amended_witness :
    find_all_from 1 (Except.ok (some [⟨5, 0⟩]) :: [Except.error Err.panicked]) ⟨[5], [], []⟩
      = Except.ok [(5, ⟨5, 0, 1⟩)] ∧
    find_all_from 1 [Except.ok (some [⟨5, 1⟩]), Except.ok (some [⟨5, 2⟩])] ⟨[5, 9], [], []⟩
      = Except.error (.unresolved "" [9] [5, 5]) :=
  ⟨claim7_amended.2.1 1 5 0 [Except.error Err.panicked],
   claim7_amended.2.2 1 5 9 1 2 (by decide) (by decide)⟩

/-- Counterexample to claim C8: after a source resolves address 5 and a later
source emits address 5 again, the matching loop reaches a state where 5 is
simultaneously a key of the resolved map and a member of the unused list —
the three collections are not a partition. -/
theorem claim8_counterexample :
    processWallets 1 ⟨[5, 9], [], []⟩ [⟨5, 1⟩, ⟨5, 2⟩]
      = Step.cont ⟨[9], [(5, ⟨5, 1, 1⟩)], [5]⟩ ∧
    5 ∈ ([(5, (⟨5, 1, 1⟩ : WalletType))].map Prod.fst) ∧ 5 ∈ ([5] : List Address) :=
  ⟨by decide, by decide, by decide⟩

/-- Claim C8 (amended): the matching loop does keep the remaining target set
disjoint from the resolved map's keys and from the unused list (and keeps it
duplicate-free), but a resolved address can later also appear in the unused
list when a subsequent source re-emits it. -/
theorem claim8_amended (chain : Nat) (ws : List RawWallet) :
    ∀ (s s' : ResolveState),
      s.targets.Nodup →
      (∀ a ∈ s.targets, a ∉ s.resolved.map Prod.fst ∧ a ∉ s.unused) →
      processWallets chain s ws = Step.cont s' →
      s'.targets.Nodup ∧
        ∀ a ∈ s'.targets, a ∉ s'.resolved.map Prod.fst ∧ a ∉ s'.unused := by
  induction ws with
  | nil =>
    intro s s' hnd hdisj h
    simp only [processWallets, Step.cont.injEq] at h
    subst h
    exact ⟨hnd, hdisj⟩
  | cons wlt rest ih =>
    intro s s' hnd hdisj h
    by_cases hmem : wlt.address ∈ s.targets
    · by_cases hemp : (s.targets.erase wlt.address).isEmpty
      · simp [processWallets, collect_addresses, hmem, hemp] at h
      · have hc : collect_addresses s wlt.address ⟨wlt.address, wlt.tag, chain⟩
            = Step.cont ⟨s.targets.erase wlt.address,
                s.resolved ++ [(wlt.address, ⟨wlt.address, wlt.tag, chain⟩)], s.unused⟩ := by
          simp [collect_addresses, hmem, hemp]
        simp only [processWallets, hc] at h
        refine ih _ s' (hnd.erase _) ?_ h
        intro a ha
        obtain ⟨hane, hamem⟩ := (List.Nodup.mem_erase_iff hnd).mp ha
        obtain ⟨har, hau⟩ := hdisj a hamem
        refine ⟨?_, hau⟩
        simp only [List.map_append, List.map_cons, List.map_nil, List.mem_append,
          List.mem_singleton]
        rintro (hin | rfl)
        · exact har hin
        · exact hane rfl
    · have hc : collect_addresses s wlt.address ⟨wlt.address, wlt.tag, chain⟩
          = Step.cont ⟨s.targets, s.resolved, s.unused ++ [wlt.address]⟩ := by
        simp [collect_addresses, hmem]
      simp only [processWallets, hc] at h
      refine ih ⟨s.targets, s.resolved, s.unused ++ [wlt.address]⟩ s' hnd ?_ h
      intro a ha
      obtain ⟨har, hau⟩ := hdisj a ha
      refine ⟨har, ?_⟩
      simp only [List.mem_append, List.mem_singleton]
      rintro (hin | rfl)
      · exact hau hin
      · exact hmem ha

/-- Witness for the amended C8 at a concrete input: one matching step from
targets `[5, 9]` preserves the disjointness of the remaining target `9` from
the resolved key `5` and the (empty) unused list. -/
theorem claim8_amended_witness :
    ([9] : List Address).Nodup ∧
      (9 ∉ ([(5, (⟨5, 1, 1⟩ : WalletType))].map Prod.fst) ∧ 9 ∉ ([] : List Address)) := by
  have h := claim8_amended 1 [⟨5, 1⟩] ⟨[5, 9], [], []⟩ ⟨[9], [(5, ⟨5, 1, 1⟩)], []⟩
    (by decide) (by decide) (by decide)
  exact ⟨h.1, h.2 9 (by decide)⟩

theorem except_map_error_iff (x : Except Err α) (f : α → β) (e : Err) :
    x.map f = Except.error e ↔ x = Except.error e := by
  cases x <;> simp [Except.map]

theorem processWallets_cont_targets_ne (chain : Nat) (ws : List RawWallet) :
    ∀ s s', processWallets chain s ws = Step.cont s' → s.targets ≠ [] → s'.targets ≠ [] := by
  induction ws with
  | nil =>
    intro s s' h hne
    simp only [processWallets, Step.cont.injEq] at h
    exact h ▸ hne
  | cons wlt rest ih =>
    intro s s' h hne
    by_cases hmem : wlt.address ∈ s.targets
    · by_cases hemp : (s.targets.erase wlt.address).isEmpty
      · simp [processWallets, collect_addresses, hmem, hemp] at h
      · have hc : collect_addresses s wlt.address ⟨wlt.address, wlt.tag, chain⟩
            = Step.cont ⟨s.targets.erase wlt.address,
                s.resolved ++ [(wlt.address, ⟨wlt.address, wlt.tag, chain⟩)], s.unused⟩ := by
          simp [collect_addresses, hmem, hemp]
        simp only [processWallets, hc] at h
        refine ih _ s' h ?_
        intro hnil
        have hnil' : s.targets.erase wlt.address = [] := hnil
        exact hemp (by rw [hnil']; rfl)
    · have hc : collect_addresses s wlt.address ⟨wlt.address, wlt.tag, chain⟩
          = Step.cont ⟨s.targets, s.resolved, s.unused ++ [wlt.address]⟩ := by
        simp [collect_addresses, hmem]
      simp only [processWallets, hc] at h
      exact ih _ s' h hne

/-- Counterexample to claim C9: targets `{5, 9}` with a single source that
emits only address 5: the failure diagnostic carries unused list `[5]`, yet
the matching loop's unused-wallet list at exhaustion is `[]` — address 5 was
resolved (not unused) and was appended to the reported list by the final bail,
so the diagnostic does not carry the UnusedWalletList itself. -/
theorem claim9_counterexample :
    find_all_from 1 [Except.ok (some [⟨5, 3⟩])] ⟨[5, 9], [], []⟩
      = Except.error (.unresolved "" [9] [5]) ∧
    processWallets 1 ⟨[5, 9], [], []⟩ [⟨5, 3⟩]
      = Step.cont ⟨[9], [(5, ⟨5, 3, 1⟩)], []⟩ :=
  ⟨rfl, by decide⟩

theorem find_all_from_eq_fold (chain : Nat) (srcs : List Src) :
    ∀ s : ResolveState,
      find_all_from chain srcs s
        = match foldSources chain srcs s with
          | .early m => Except.ok m
          | .failed e => Except.error e
          | .exhausted s' => finalBail s' := by
  induction srcs with
  | nil => intro s; rfl
  | cons src rest ih =>
    intro s
    cases src with
    | error e => rfl
    | ok o =>
      cases o with
      | none =>
        simp only [find_all_from, foldSources]
        exact ih s
      | some ws =>
        cases hp : processWallets chain s ws with
        | done m => simp only [find_all_from, foldSources, hp]
        | cont s' =>
          simp only [find_all_from, foldSources, hp]
          exact ih s'

theorem foldSources_exhausted_targets_ne (chain : Nat) (srcs : List Src) :
    ∀ s s' : ResolveState,
      foldSources chain srcs s = FoldOut.exhausted s' →
      s.targets ≠ [] → s'.targets ≠ [] := by
  induction srcs with
  | nil =>
    intro s s' h hne
    simp only [foldSources, FoldOut.exhausted.injEq] at h
    exact h ▸ hne
  | cons src rest ih =>
    intro s s' h hne
    cases src with
    | error e => simp [foldSources] at h
    | ok o =>
      cases o with
      | none => exact ih s s' h hne
      | some ws =>
        cases hp : processWallets chain s ws with
        | done m => simp [foldSources, hp] at h
        | cont s1 =>
          simp only [foldSources, hp] at h
          exact ih s1 s' h (processWallets_cont_targets_ne chain ws s s1 hp hne)

/-- Claim C9 (amended): whenever the source run is exhausted — every source
consumed, no early exit, leaving loop state `s'` — resolution fails with the
unresolved diagnostic carrying exactly the remaining target set `s'.targets`
(non-empty whenever the call started with targets) and the unused-wallet list
extended with the keys of the wallets resolved so far
(`s'.unused ++ s'.resolved.map Prod.fst`); its message part is the
default-sender warning exactly when the default sender remains, and in that
case the rendered message begins with the warning. -/
theorem claim9_amended (env : Env) (w : MultiWallet) (addrs : List Address)
    (sw : List RawWallet) (chain : Nat) (s' : ResolveState)
    (hch : liftE env.get_chainid = Except.ok chain)
    (hex : foldSources chain (sourceList env w chain sw) ⟨addrs, [], []⟩
      = FoldOut.exhausted s') :
    find_all env w addrs sw
      = Except.error (.unresolved
          (if Config.DEFAULT_SENDER ∈ s'.targets then defaultSenderWarning else "")
          s'.targets (s'.unused ++ s'.resolved.map Prod.fst)) ∧
    (addrs ≠ [] → s'.targets ≠ []) ∧
    (Config.DEFAULT_SENDER ∈ s'.targets →
      ∃ t, renderErr (.unresolved
          (if Config.DEFAULT_SENDER ∈ s'.targets then defaultSenderWarning else "")
          s'.targets (s'.unused ++ s'.resolved.map Prod.fst))
        = defaultSenderWarning ++ t) := by
  refine ⟨?_, ?_, ?_⟩
  · rw [find_all_eq, hch]
    show find_all_from chain (sourceList env w chain sw) ⟨addrs, [], []⟩ = _
    rw [find_all_from_eq_fold, hex]
    rfl
  · exact foldSources_exhausted_targets_ne chain (sourceList env w chain sw)
      ⟨addrs, [], []⟩ s' hex
  · intro hmem
    refine ⟨"No associated wallet for addresses: " ++ reprStr s'.targets ++
      ". Unlocked wallets: " ++ reprStr (s'.unused ++ s'.resolved.map Prod.fst), ?_⟩
    simp only [renderErr]
    rw [if_pos hmem]

/-- Witness for the amended C9 at a concrete input: an unconfigured wallet
with the default sender as sole target exhausts all seven sources and fails
with the diagnostic carrying that target, the (empty) unused list extended
with the (no) resolved keys, and a message that begins with the
default-sender warning. -/
theorem claim9_amended_witness :
    find_all envNone emptyWallet [Config.DEFAULT_SENDER] []
      = Except.error (.unresolved
          (if Config.DEFAULT_SENDER ∈ ([Config.DEFAULT_SENDER] : List Address) then
            defaultSenderWarning else "")
          [Config.DEFAULT_SENDER] (([] : List Address) ++ ([] : RMap).map Prod.fst)) ∧
    (([Config.DEFAULT_SENDER] : List Address) ≠ [] →
      ([Config.DEFAULT_SENDER] : List Address) ≠ []) ∧
    (Config.DEFAULT_SENDER ∈ ([Config.DEFAULT_SENDER] : List Address) →
      ∃ t, renderErr (.unresolved
          (if Config.DEFAULT_SENDER ∈ ([Config.DEFAULT_SENDER] : List Address) then
            defaultSenderWarning else "")
          [Config.DEFAULT_SENDER] (([] : List Address) ++ ([] : RMap).map Prod.fst))
        = defaultSenderWarning ++ t) :=
  claim9_amended envNone emptyWallet [Config.DEFAULT_SENDER] [] 1
    ⟨[Config.DEFAULT_SENDER], [], []⟩ rfl rfl

theorem keystoreLoop_no_panic (env : Env)
    (hks : ∀ p pw, env.get_from_keystore (some p) pw ≠ Except.ok none) :
    ∀ l, keystoreLoop env l ≠ Except.error Err.panicked := by
  intro l
  induction l with
  | nil => simp [keystoreLoop]
  | cons x xs ih =>
    obtain ⟨p, pw⟩ := x
    cases hx : env.get_from_keystore (some p) pw with
    | error m => simp [keystoreLoop, hx]
    | ok o =>
      cases o with
      | none => exact absurd hx (hks p pw)
      | some wlt =>
        simp only [keystoreLoop, hx]
        intro hc
        rw [except_map_error_iff] at hc
        exact ih hc

/-- Claim C10: the keystores adapter never panics, provided the keystore
opener honours its contract of returning an identity or an error when given a
present path — the `.unwrap()`'s `None` branch (modelled as `Err.panicked`) is
unreachable. -/
theorem claim10_no_panic (env : Env) (w : MultiWallet)
    (hks : ∀ p pw, env.get_from_keystore (some p) pw ≠ Except.ok none) :
    keystores_fn env w ≠ Except.error Err.panicked := by
  cases hp : w.keystore_paths with
  | none => simp [keystores_fn, hp]
  | some paths =>
    simp only [keystores_fn, hp]
    by_cases hemp : (((w.keystore_passwords.getD []).map some)).isEmpty
    · rw [if_pos hemp]
      intro hc
      rw [except_map_error_iff] at hc
      exact keystoreLoop_no_panic env hks _ hc
    · rw [if_neg hemp]
      by_cases hlen : (((w.keystore_passwords.getD []).map some)).length ≠ paths.length
      · rw [if_pos hlen]; simp
      · rw [if_neg hlen]
        intro hc
        rw [except_map_error_iff] at hc
        exact keystoreLoop_no_panic env hks _ hc

/-- Witness for C10 at a concrete input: a single configured keystore path
with an opener that always returns an identity does not panic. -/
theorem claim10_no_panic_witness :
    keystores_fn envKeystore cw10 ≠ Except.error Err.panicked :=
  claim10_no_panic envKeystore cw10 (fun p pw => by simp [envKeystore])

end FoundryWallet
